import Mathlib

/-!
Shallow embedding of the TodoApp React Native component
(`TodoApp` in the single source file): the task data model, the
mutation handlers (`addTodo`, `toggleTodo`, `deleteTodo`, `startEdit`,
`saveEdit`, `cancelEdit`), the derivation `filteredTodos`, and the
progress counters, translated function-by-function from the source.
UI-only state (keyboard height) and the view markup are not part of the
logical core and are omitted.
-/

namespace TodoModel

/-- The closed category enumeration of `Todo.category`. -/
inductive Category
  | personal
  | work
  | shopping
  | health
deriving DecidableEq, Repr

/-- The closed priority enumeration of `Todo.priority`. -/
inductive Priority
  | low
  | medium
  | high
deriving DecidableEq, Repr

/-- The status-filter values of the `filter` state:
`useState<'all' | 'active' | 'completed'>('all')`. -/
inductive StatusFilter
  | all
  | active
  | completed
deriving DecidableEq, Repr

/-- The `Todo` interface of the source.  `createdAt : Nat` stands for the
`Date` timestamp (milliseconds); `id` is a string as in the source. -/
structure Todo where
  id : String
  text : String
  completed : Bool
  category : Category
  priority : Priority
  createdAt : Nat
deriving DecidableEq, Repr

/-- The component state: the `useState` hooks of `TodoApp`, minus the
view-only `keyboardHeight`.  `editingId : Option String` models the
nullable `string | null`. -/
structure AppState where
  todos : List Todo
  inputText : String
  selectedCategory : Category
  selectedPriority : Priority
  filter : StatusFilter
  searchQuery : String
  editingId : Option String
  editingText : String
  showAddForm : Bool
deriving DecidableEq, Repr

/-- JavaScript `s.trim()`: the string with whitespace characters removed
from both ends. -/
def jsTrim (s : String) : String :=
  ⟨(((s.data.dropWhile Char.isWhitespace).reverse).dropWhile
      Char.isWhitespace).reverse⟩

/-- The character list of a string with every character lowered:
models JavaScript `s.toLowerCase()` on the character level (the source
only ever feeds the result to `includes`). -/
def lowerChars (s : String) : List Char :=
  s.data.map Char.toLower

/-- Predicate `matchHere needle hay`: true when `needle` matches `hay` from the
first character on (the anchored part of JavaScript substring search). -/
def matchHere : List Char → List Char → Bool
  | [], _ => true
  | _ :: _, [] => false
  | a :: as, b :: bs => if a = b then matchHere as bs else false

/-- Predicate `occursIn needle hay`: the `needle` occurs contiguously somewhere in
`hay` — the substring search of JavaScript `hay.includes(needle)`. -/
def occursIn : List Char → List Char → Bool
  | needle, [] => matchHere needle []
  | needle, b :: bs => matchHere needle (b :: bs) || occursIn needle bs

/-- Predicate `matchesSearch query text` embedding
`todo.text.toLowerCase().includes(searchQuery.toLowerCase())`. -/
def matchesSearch (query text : String) : Bool :=
  occursIn (lowerChars query) (lowerChars text)

/-- The status predicate of `filteredTodos`:
`filter === 'all' || (filter === 'active' && !todo.completed) ||
(filter === 'completed' && todo.completed)`. -/
def matchesFilter (f : StatusFilter) (t : Todo) : Bool :=
  f = StatusFilter.all
    || (f = StatusFilter.active && !t.completed)
    || (f = StatusFilter.completed && t.completed)

/-- The derivation `filteredTodos`: it closes over `todos`, `filter` and
`searchQuery`, here passed explicitly. -/
def filteredTodos (todos : List Todo) (f : StatusFilter) (query : String) :
    List Todo :=
  todos.filter fun t => matchesFilter f t && matchesSearch query t.text

/-- The visible sequence of a full state. -/
def visibleTodos (st : AppState) : List Todo :=
  filteredTodos st.todos st.filter st.searchQuery

/-- The `newTodo` record built inside `addTodo`: id is
`Date.now().toString()`, text the trimmed draft, `completed: false`,
category and priority the selected draft values. -/
def createdTodo (st : AppState) (now : Nat) : Todo :=
  { id := Nat.repr now
    text := jsTrim st.inputText
    completed := false
    category := st.selectedCategory
    priority := st.selectedPriority
    createdAt := now }

/-- Handler `addTodo`: guarded by the truthiness of `inputText.trim()` (a string
is truthy exactly when non-empty); `now : Nat` is the external clock
read, producing both `Date.now().toString()` as the id and the
`createdAt` stamp. -/
def addTodo (st : AppState) (now : Nat) : AppState :=
  if jsTrim st.inputText = "" then st
  else
    { st with
        todos := createdTodo st now :: st.todos
        inputText := ""
        showAddForm := false }

/-- The per-task mapper of `toggleTodo`:
`todo.id === id ? { ...todo, completed: !todo.completed } : todo`. -/
def toggleFlip (id : String) (t : Todo) : Todo :=
  if t.id = id then { t with completed := !t.completed } else t

/-- Handler `toggleTodo(id)`: map over `todos`, flipping `completed` where the id
matches. -/
def toggleTodo (st : AppState) (id : String) : AppState :=
  { st with todos := st.todos.map (toggleFlip id) }

/-- Handler `deleteTodo(id)`: the `Alert` confirmation is the external boolean
`confirm`; only the accepting branch (`onPress` of the Delete button)
filters the list, `Cancel` does nothing. -/
def deleteTodo (st : AppState) (id : String) (confirm : Bool) : AppState :=
  if confirm then
    { st with todos := st.todos.filter fun t => !(t.id = id) }
  else st

/-- Handler `startEdit(todo)`: records the id and seeds the edit buffer. -/
def startEdit (st : AppState) (t : Todo) : AppState :=
  { st with editingId := some t.id, editingText := t.text }

/-- Handler `saveEdit`: commits the trimmed buffer onto the task matching
`editingId` only when the trimmed buffer is truthy (non-empty); in every
case it then clears `editingId` and `editingText`. -/
def saveEdit (st : AppState) : AppState :=
  let st' :=
    if jsTrim st.editingText = "" then st
    else
      { st with
          todos := st.todos.map fun t =>
            if st.editingId = some t.id then
              { t with text := jsTrim st.editingText }
            else t }
  { st' with editingId := none, editingText := "" }

/-- Handler `cancelEdit`: clears the editing state, touching no task. -/
def cancelEdit (st : AppState) : AppState :=
  { st with editingId := none, editingText := "" }

/-- Counter `completedCount = todos.filter(todo => todo.completed).length`. -/
def completedCount (todos : List Todo) : Nat :=
  (todos.filter fun t => t.completed).length

/-- Counter `totalCount = todos.length`. -/
def totalCount (todos : List Todo) : Nat :=
  todos.length

/-- The progress fraction rendered by the header bar:
`totalCount > 0 ? (completedCount / totalCount) : 0` (the source
multiplies this value by 100 for the bar width). -/
def completionFraction (todos : List Todo) : ℚ :=
  if totalCount todos > 0 then
    (completedCount todos : ℚ) / (totalCount todos : ℚ)
  else 0

/-- The three `sampleTodos` installed by the first-mount effect; all three
`new Date()` reads happen in one event, modelled by one `now`. -/
def sampleTodos (now : Nat) : List Todo :=
  [ { id := "1"
      text := "Complete project presentation"
      completed := false
      category := Category.work
      priority := Priority.high
      createdAt := now }
  , { id := "2"
      text := "Buy groceries for the week"
      completed := false
      category := Category.shopping
      priority := Priority.medium
      createdAt := now }
  , { id := "3"
      text := "Morning workout"
      completed := true
      category := Category.health
      priority := Priority.low
      createdAt := now } ]

/-- The state after first mount: the `useState` initialisers with the
sample-data effect applied (`setTodos(sampleTodos)`). -/
def initialState (now : Nat) : AppState :=
  { todos := sampleTodos now
    inputText := ""
    selectedCategory := Category.personal
    selectedPriority := Priority.medium
    filter := StatusFilter.all
    searchQuery := ""
    editingId := none
    editingText := ""
    showAddForm := false }

/-- A user-driven mutation event: `create` sets the draft fields (the
text input and the two pickers) and presses Add; `toggle` presses a
checkbox; `deleteOp` presses the trash icon and answers the confirmation
dialog with `confirm`. -/
inductive Op
  | create (text : String) (cat : Category) (pri : Priority) (now : Nat)
  | toggle (id : String)
  | deleteOp (id : String) (confirm : Bool)
deriving DecidableEq, Repr

/-- One event against the store. -/
def applyOp (st : AppState) : Op → AppState
  | Op.create text cat pri now =>
      addTodo
        { st with
            inputText := text
            selectedCategory := cat
            selectedPriority := pri }
        now
  | Op.toggle id => toggleTodo st id
  | Op.deleteOp id confirm => deleteTodo st id confirm

/-- A sequence of events, applied left to right. -/
def run (st : AppState) : List Op → AppState
  | [] => st
  | op :: rest => run (applyOp st op) rest

/-- The ids currently in the store. -/
def storeIds (st : AppState) : List String :=
  st.todos.map fun t => t.id

/-- A create allocates an id (the string of its timestamp) not present
in the store at that moment; toggles and deletes are always fresh. -/
def freshOp (st : AppState) : Op → Bool
  | Op.create _ _ _ now => decide (Nat.repr now ∉ storeIds st)
  | _ => true

/-- Every create in the sequence allocates an id not present in the
store at its moment. -/
def freshRun (st : AppState) : List Op → Bool
  | [] => true
  | op :: rest => freshOp st op && freshRun (applyOp st op) rest

/-! Helper lemmas shared by several results. -/

/-- The empty character sequence occurs in every sequence. -/
theorem occursIn_nil (l : List Char) : occursIn [] l = true := by
  cases l <;> simp [occursIn, matchHere]

/-- An empty search query matches every text. -/
theorem matchesSearch_empty_query (t : String) : matchesSearch "" t = true := by
  have h : lowerChars "" = [] := rfl
  rw [matchesSearch, h, occursIn_nil]

/-- The `all` status passes every task. -/
theorem matchesFilter_all (t : Todo) :
    matchesFilter StatusFilter.all t = true := by
  simp [matchesFilter]

/-- The `active` status keeps exactly the uncompleted tasks. -/
theorem matchesFilter_active (t : Todo) :
    matchesFilter StatusFilter.active t = !t.completed := by
  simp [matchesFilter]

/-- The `completed` status keeps exactly the completed tasks. -/
theorem matchesFilter_completed (t : Todo) :
    matchesFilter StatusFilter.completed t = t.completed := by
  simp [matchesFilter]

/-! The claims. -/

/-- C2: when the trimmed draft text is empty, `addTodo` is a no-op: the
task list, the draft text and the add-panel flag are all unchanged, and
in particular the task count is unchanged. -/
theorem addTodo_blank_noop (st : AppState) (now : Nat)
    (h : jsTrim st.inputText = "") :
    addTodo st now = st ∧
    (addTodo st now).todos = st.todos ∧
    (addTodo st now).inputText = st.inputText ∧
    (addTodo st now).showAddForm = st.showAddForm ∧
    totalCount (addTodo st now).todos = totalCount st.todos := by
  have heq : addTodo st now = st := by simp [addTodo, h]
  simp [heq]

/-- Witness for C2 at a concrete whitespace-only draft. -/
theorem addTodo_blank_noop_witness :
    jsTrim (initialState 0 |>.inputText) = "" ∧
    addTodo (initialState 0) 99 = initialState 0 :=
  ⟨by decide, (addTodo_blank_noop (initialState 0) 99 (by decide)).1⟩

/-- C3: when the trimmed draft text is non-empty, `addTodo` prepends the
new task (trimmed text, selected category and priority, not completed)
to the unchanged former sequence, clears the draft and closes the add
panel; with an empty query the new task heads the visible sequence under
the `all` filter. -/
theorem addTodo_nonblank_prepends (st : AppState) (now : Nat)
    (h : jsTrim st.inputText ≠ "") :
    (addTodo st now).todos = createdTodo st now :: st.todos ∧
    (createdTodo st now).text = jsTrim st.inputText ∧
    (createdTodo st now).category = st.selectedCategory ∧
    (createdTodo st now).priority = st.selectedPriority ∧
    (createdTodo st now).completed = false ∧
    (addTodo st now).inputText = "" ∧
    (addTodo st now).showAddForm = false ∧
    (st.searchQuery = "" →
      filteredTodos (addTodo st now).todos StatusFilter.all st.searchQuery =
        createdTodo st now ::
          filteredTodos st.todos StatusFilter.all st.searchQuery) := by
  have htd : (addTodo st now).todos = createdTodo st now :: st.todos := by
    simp [addTodo, h]
  refine ⟨htd, rfl, rfl, rfl, rfl, by simp [addTodo, h], by simp [addTodo, h], ?_⟩
  intro hq
  rw [htd, hq, filteredTodos, List.filter_cons_of_pos]
  · rfl
  · simp [matchesFilter_all, matchesSearch_empty_query]

/-- Witness for C3 at a concrete draft. -/
theorem addTodo_nonblank_prepends_witness :
    jsTrim ({ initialState 0 with
        inputText := " Complete project presentation " }.inputText) ≠ "" ∧
    (addTodo { initialState 0 with
        inputText := " Complete project presentation " } 7).todos =
      createdTodo { initialState 0 with
        inputText := " Complete project presentation " } 7 ::
        (initialState 0).todos :=
  ⟨by decide,
   (addTodo_nonblank_prepends
      { initialState 0 with inputText := " Complete project presentation " } 7
      (by decide)).1⟩

/-- C4: `saveEdit` always clears the editing id and the edit buffer; it
keeps the task count; with a whitespace-only buffer every task is left
unchanged; and positionally, a task is overwritten with the trimmed
buffer exactly when the buffer trims non-empty and its id is the stored
editing id. -/
theorem saveEdit_spec (st : AppState) :
    (saveEdit st).editingId = none ∧
    (saveEdit st).editingText = "" ∧
    (saveEdit st).todos.length = st.todos.length ∧
    (jsTrim st.editingText = "" → (saveEdit st).todos = st.todos) ∧
    (∀ i (h1 : i < st.todos.length) (h2 : i < (saveEdit st).todos.length),
      (saveEdit st).todos.get ⟨i, h2⟩ =
        if jsTrim st.editingText ≠ "" ∧
            st.editingId = some ((st.todos.get ⟨i, h1⟩).id) then
          { st.todos.get ⟨i, h1⟩ with text := jsTrim st.editingText }
        else st.todos.get ⟨i, h1⟩) := by
  by_cases hc : jsTrim st.editingText = ""
  · refine ⟨rfl, rfl, by simp [saveEdit, hc], fun _ => by simp [saveEdit, hc], ?_⟩
    intro i h1 h2
    simp [saveEdit, hc]
  · refine ⟨rfl, rfl, by simp [saveEdit, hc], fun hx => absurd hx hc, ?_⟩
    intro i h1 h2
    by_cases he : st.editingId = some ((st.todos.get ⟨i, h1⟩).id) <;>
      simp [saveEdit, hc, he, List.get_eq_getElem, List.getElem_map]

/-- Witness for C4: a whitespace-only buffer is discarded but the editing
state is cleared. -/
theorem saveEdit_spec_witness :
    jsTrim "  " = "" ∧
    (saveEdit { initialState 0 with
        editingId := some "2", editingText := "  " }).todos =
      (initialState 0).todos ∧
    (saveEdit { initialState 0 with
        editingId := some "2", editingText := "  " }).editingId = none :=
  ⟨by decide,
   (saveEdit_spec { initialState 0 with
      editingId := some "2", editingText := "  " }).2.2.2.1 (by decide),
   (saveEdit_spec { initialState 0 with
      editingId := some "2", editingText := "  " }).1⟩

/-- C5: `deleteTodo` with the confirmation declined changes nothing (in
particular the task count); with it accepted it removes exactly the
tasks with the matching id (a no-op when the id is absent), and the
removed id is absent from every filtered view of the result. -/
theorem deleteTodo_spec (st : AppState) (id : String) :
    deleteTodo st id false = st ∧
    totalCount (deleteTodo st id false).todos = totalCount st.todos ∧
    ((∀ t ∈ st.todos, t.id ≠ id) → deleteTodo st id true = st) ∧
    (∀ t ∈ (deleteTodo st id true).todos, t.id ≠ id) ∧
    (∀ t ∈ st.todos, t.id ≠ id → t ∈ (deleteTodo st id true).todos) ∧
    (∀ f q t, t ∈ filteredTodos (deleteTodo st id true).todos f q →
      t.id ≠ id) := by
  have habsent : ∀ t ∈ (deleteTodo st id true).todos, t.id ≠ id := by
    intro t ht
    simp [deleteTodo, List.mem_filter] at ht
    exact ht.2
  refine ⟨rfl, rfl, ?_, habsent, ?_, ?_⟩
  · intro hall
    have : st.todos.filter (fun t => !(t.id = id)) = st.todos :=
      List.filter_eq_self.mpr (fun t ht => by simp [hall t ht])
    simp [deleteTodo, this]
  · intro t ht hne
    simp [deleteTodo, List.mem_filter, ht, hne]
  · intro f q t ht
    exact habsent t ((List.mem_filter.mp ht).1)

/-- Witness for C5: deleting id 2 with the prompt accepted, from the
sample store. -/
theorem deleteTodo_spec_witness :
    deleteTodo (initialState 0) "2" false = initialState 0 ∧
    (∀ t ∈ (initialState 0).todos, t.id ≠ "9") ∧
    deleteTodo (initialState 0) "9" true = initialState 0 :=
  ⟨(deleteTodo_spec (initialState 0) "2").1, by decide,
   (deleteTodo_spec (initialState 0) "9").2.2.1 (by decide)⟩

/-- Flipping the same id twice restores the task. -/
theorem toggleFlip_involutive (id : String) (t : Todo) :
    toggleFlip id (toggleFlip id t) = t := by
  obtain ⟨tid, ttext, tc, tcat, tpri, tca⟩ := t
  by_cases h : tid = id
  · subst h
    simp [toggleFlip]
  · simp [toggleFlip, h]

/-- C8: applying `toggleTodo` twice with the same id restores the whole
state; an id held by no task makes it a no-op (not an error); and
positionally it flips `completed` exactly on the tasks whose id
matches, leaving every other task unchanged. -/
theorem toggleTodo_spec (st : AppState) (id : String) :
    toggleTodo (toggleTodo st id) id = st ∧
    ((∀ t ∈ st.todos, t.id ≠ id) → toggleTodo st id = st) ∧
    (toggleTodo st id).todos.length = st.todos.length ∧
    (∀ i (h1 : i < st.todos.length) (h2 : i < (toggleTodo st id).todos.length),
      (toggleTodo st id).todos.get ⟨i, h2⟩ =
        if (st.todos.get ⟨i, h1⟩).id = id then
          { st.todos.get ⟨i, h1⟩ with
              completed := !(st.todos.get ⟨i, h1⟩).completed }
        else st.todos.get ⟨i, h1⟩) := by
  refine ⟨?_, ?_, by simp [toggleTodo], ?_⟩
  · have hmm : (st.todos.map (toggleFlip id)).map (toggleFlip id) = st.todos := by
      induction st.todos with
      | nil => rfl
      | cons a l ih => simp [toggleFlip_involutive, ih]
    show ({ st with todos := (st.todos.map (toggleFlip id)).map (toggleFlip id) }
        : AppState) = st
    rw [hmm]
  · intro hall
    have hid : st.todos.map (toggleFlip id) = st.todos := by
      rw [List.map_congr_left fun t ht =>
        (by simp [toggleFlip, hall t ht] : toggleFlip id t = t)]
      exact List.map_id' st.todos
    simp [toggleTodo, hid]
  · intro i h1 h2
    by_cases h : (st.todos.get ⟨i, h1⟩).id = id <;>
      simp [toggleTodo, toggleFlip, h, List.get_eq_getElem, List.getElem_map]

/-- Witness for C8: toggling the absent id 9 in the sample store. -/
theorem toggleTodo_spec_witness :
    (∀ t ∈ (initialState 0).todos, t.id ≠ "9") ∧
    toggleTodo (initialState 0) "9" = initialState 0 :=
  ⟨by decide, (toggleTodo_spec (initialState 0) "9").2.1 (by decide)⟩

/-- C6: the derivation keeps a task exactly when it passes the status
filter and its text contains the query as a case-insensitive substring;
the survivors keep the store's relative order (sublist); an empty query
matches every task; and the query GROCERIES matches the groceries
sample text. -/
theorem filteredTodos_spec (todos : List Todo) (f : StatusFilter) (q : String) :
    (∀ t, t ∈ filteredTodos todos f q ↔
      t ∈ todos ∧ matchesFilter f t = true ∧ matchesSearch q t.text = true) ∧
    (filteredTodos todos f q).Sublist todos ∧
    (q = "" → ∀ t : Todo, matchesSearch q t.text = true) ∧
    matchesSearch "GROCERIES" "Buy groceries for the week" = true := by
  refine ⟨?_, List.filter_sublist todos, ?_, by decide⟩
  · intro t
    simp [filteredTodos, List.mem_filter, and_assoc]
  · intro hq t
    rw [hq]
    exact matchesSearch_empty_query t.text

/-- Witness for C6: the empty-query clause at the sample store. -/
theorem filteredTodos_spec_witness :
    ("" : String) = "" ∧
    matchesSearch "" (((sampleTodos 0).get ⟨0, by decide⟩).text) = true :=
  ⟨rfl,
   (filteredTodos_spec (sampleTodos 0) StatusFilter.all "").2.2.1 rfl
     ((sampleTodos 0).get ⟨0, by decide⟩)⟩

/-- C7: over the same store and query, the `active` and `completed`
views are disjoint, and membership in the `all` view is exactly
membership in one of them. -/
theorem filteredTodos_partition (todos : List Todo) (q : String) :
    (∀ t, t ∈ filteredTodos todos StatusFilter.active q →
      t ∉ filteredTodos todos StatusFilter.completed q) ∧
    (∀ t, t ∈ filteredTodos todos StatusFilter.all q ↔
      (t ∈ filteredTodos todos StatusFilter.active q ∨
       t ∈ filteredTodos todos StatusFilter.completed q)) := by
  constructor
  · intro t hact hcom
    have h1 := (List.mem_filter.mp hact).2
    have h2 := (List.mem_filter.mp hcom).2
    rw [Bool.and_eq_true, matchesFilter_active] at h1
    rw [Bool.and_eq_true, matchesFilter_completed] at h2
    rw [h2.1] at h1
    exact Bool.false_ne_true h1.1
  · intro t
    simp only [filteredTodos, List.mem_filter, Bool.and_eq_true,
      matchesFilter_all, matchesFilter_active, matchesFilter_completed]
    cases hc : t.completed <;> simp [hc]

/-- Witness for C7: the disjointness clause at the sample store. -/
theorem filteredTodos_partition_witness :
    (sampleTodos 0).get ⟨0, by decide⟩ ∈
      filteredTodos (sampleTodos 0) StatusFilter.active "" ∧
    (sampleTodos 0).get ⟨0, by decide⟩ ∉
      filteredTodos (sampleTodos 0) StatusFilter.completed "" :=
  ⟨by decide,
   (filteredTodos_partition (sampleTodos 0) "").1
     ((sampleTodos 0).get ⟨0, by decide⟩) (by decide)⟩

/-- C9: the completion fraction is completed-count over total-count, with
the empty store giving 0; three tasks with one completed give 1/3. -/
theorem completionFraction_spec (todos : List Todo) :
    (totalCount todos = 0 → completionFraction todos = 0) ∧
    (totalCount todos ≠ 0 →
      completionFraction todos =
        (completedCount todos : ℚ) / (totalCount todos : ℚ)) ∧
    completionFraction ([] : List Todo) = 0 ∧
    (totalCount todos = 3 → completedCount todos = 1 →
      completionFraction todos = 1/3) := by
  refine ⟨fun h0 => by simp [completionFraction, h0],
    fun hn => by simp [completionFraction, Nat.pos_of_ne_zero hn],
    by simp [completionFraction, totalCount], ?_⟩
  intro h3 h1
  rw [completionFraction, if_pos (by rw [h3]; norm_num), h3, h1]
  norm_num

/-- Witness for C9: the sample store has 3 tasks, 1 completed, fraction
1/3. -/
theorem completionFraction_spec_witness :
    totalCount (sampleTodos 0) = 3 ∧
    completedCount (sampleTodos 0) = 1 ∧
    completionFraction (sampleTodos 0) = 1/3 :=
  ⟨rfl, rfl, (completionFraction_spec (sampleTodos 0)).2.2.2 rfl rfl⟩

/-- C10: after first mount the store holds exactly the three sample
tasks with ids 1, 2, 3 (distinct), of which exactly Morning workout is
completed; the visible sequence under the initial `all` filter and empty
query is all three, and the completion fraction is 1/3. -/
theorem initialState_spec (now : Nat) :
    (initialState now).todos = sampleTodos now ∧
    (sampleTodos now).map (fun t => t.id) = ["1", "2", "3"] ∧
    ((sampleTodos now).map fun t => t.id).Nodup ∧
    ((sampleTodos now).filter fun t => t.completed).map (fun t => t.text) =
      ["Morning workout"] ∧
    (initialState now).filter = StatusFilter.all ∧
    (initialState now).searchQuery = "" ∧
    visibleTodos (initialState now) = sampleTodos now ∧
    (visibleTodos (initialState now)).length = 3 ∧
    completionFraction (initialState now).todos = 1/3 := by
  have hvis : visibleTodos (initialState now) = sampleTodos now := by
    simp [visibleTodos, initialState, filteredTodos, sampleTodos,
      matchesFilter, matchesSearch, lowerChars, occursIn, matchHere]
  have hids : (sampleTodos now).map (fun t => t.id) = ["1", "2", "3"] := rfl
  refine ⟨rfl, hids, by rw [hids]; decide, rfl, rfl, rfl, hvis,
    by rw [hvis]; rfl, ?_⟩
  exact (completionFraction_spec (sampleTodos now)).2.2.2 rfl rfl

/-- C1 counterexample: from the freshly mounted store (whose ids 1, 2, 3
are distinct), two creates in the same millisecond — both clock reads
returning 5 — leave two tasks with the id 5: the uniqueness invariant
fails as stated. -/
theorem duplicateIds_counterexample :
    (storeIds (initialState 100)).Nodup ∧
    ¬ (storeIds (run (initialState 100)
        [Op.create "first task" Category.personal Priority.low 5,
         Op.create "second task" Category.work Priority.high 5])).Nodup := by
  constructor
  · decide
  · decide

/-- One operation keeps the ids distinct, provided a create allocates an
id not already present. -/
theorem nodup_applyOp (st : AppState) (op : Op)
    (h1 : (storeIds st).Nodup) (h2 : freshOp st op = true) :
    (storeIds (applyOp st op)).Nodup := by
  cases op with
  | create text cat pri now =>
      have hfresh : Nat.repr now ∉ storeIds st := by
        simp only [freshOp] at h2
        exact of_decide_eq_true h2
      by_cases hb : jsTrim text = ""
      · have hids : storeIds
            (applyOp st (Op.create text cat pri now)) = storeIds st := by
          simp [applyOp, addTodo, hb, storeIds]
        rw [hids]
        exact h1
      · have hids : storeIds (applyOp st (Op.create text cat pri now)) =
            Nat.repr now :: storeIds st := by
          simp [applyOp, addTodo, hb, storeIds, createdTodo]
        rw [hids]
        exact List.nodup_cons.mpr ⟨hfresh, h1⟩
  | toggle id =>
      have hids : storeIds (toggleTodo st id) = storeIds st := by
        simp only [storeIds, toggleTodo]
        induction st.todos with
        | nil => rfl
        | cons a l ih =>
            simp only [List.map_cons, ih]
            congr 1
            by_cases h : a.id = id <;> simp [toggleFlip, h]
      show (storeIds (toggleTodo st id)).Nodup
      rw [hids]
      exact h1
  | deleteOp id confirm =>
      cases confirm with
      | false => exact h1
      | true =>
          have hsub : ((deleteTodo st id true).todos).Sublist st.todos := by
            simp only [deleteTodo, if_pos]
            exact List.filter_sublist _
          show ((deleteTodo st id true).todos.map (fun t => t.id)).Nodup
          exact (List.Sublist.map (fun t => t.id) hsub).nodup
            (show (st.todos.map (fun t => t.id)).Nodup from h1)

/-- Along a run whose creates all allocate fresh ids, every intermediate
store keeps distinct ids. -/
theorem nodup_run_aux :
    ∀ (pre : List Op) (st : AppState) (suf : List Op),
      (storeIds st).Nodup → freshRun st (pre ++ suf) = true →
      (storeIds (run st pre)).Nodup
  | [], st, _, h1, _ => h1
  | op :: pre, st, suf, h1, h2 => by
      rw [List.cons_append, freshRun, Bool.and_eq_true] at h2
      exact nodup_run_aux pre (applyOp st op) suf
        (nodup_applyOp st op h1 h2.1) h2.2

/-- C1 amended: starting from any store with distinct ids, a sequence of
create, toggle and delete operations keeps the ids distinct at every
intermediate point, provided every create happens at a clock value whose
decimal string is not already an id in the store at that moment (the
source allocates ids with `Date.now().toString()`, so two creates in one
millisecond break uniqueness, as the counterexample shows). -/
theorem idsUnique_of_freshRun (st : AppState) (ops : List Op)
    (h1 : (storeIds st).Nodup) (h2 : freshRun st ops = true) :
    ∀ pre suf, ops = pre ++ suf → (storeIds (run st pre)).Nodup := by
  intro pre suf hsplit
  exact nodup_run_aux pre st suf h1 (hsplit ▸ h2)

/-- Witness for C1 amended: a fresh-timestamped create/toggle/delete/
create run from the mounted store keeps ids distinct. -/
theorem idsUnique_of_freshRun_witness :
    (storeIds (initialState 0)).Nodup ∧
    freshRun (initialState 0)
      [Op.create "first task" Category.personal Priority.low 5,
       Op.toggle "2",
       Op.deleteOp "3" true,
       Op.create "second task" Category.work Priority.high 6] = true ∧
    (storeIds (run (initialState 0)
      [Op.create "first task" Category.personal Priority.low 5,
       Op.toggle "2",
       Op.deleteOp "3" true,
       Op.create "second task" Category.work Priority.high 6])).Nodup :=
  ⟨by decide, by decide,
   idsUnique_of_freshRun (initialState 0)
     [Op.create "first task" Category.personal Priority.low 5,
      Op.toggle "2",
      Op.deleteOp "3" true,
      Op.create "second task" Category.work Priority.high 6]
     (by decide) (by decide)
     [Op.create "first task" Category.personal Priority.low 5,
      Op.toggle "2",
      Op.deleteOp "3" true,
      Op.create "second task" Category.work Priority.high 6]
     [] rfl⟩

end TodoModel
